import Mathlib

/-!
Verification development for the Fastmail calendar automation core:
the CalDAV client (`caldav-client.ts`: the ICS event codec, calendar
resolution, listing, and the CRUD operations) and the MCP tool handlers
(`check_availability`, `detect_scheduling_email`, `email_to_calendar`).

The JavaScript source is shallowly embedded:
* strings are `List Char` (`JSStr`);
* JS numbers that can be `NaN` are `Option Int` (`none` = `NaN`);
* a JS `Date` is its epoch value in milliseconds, `Option Int`
  (`none` = Invalid Date);
* the local-time `Date` constructor is parameterised by a fixed
  timezone offset `tz` (milliseconds east of UTC);
* the regular expressions used by `parseCalendarObject` are embedded as
  explicit leftmost-match scanners with the lazy/greedy semantics of the
  source patterns;
* network calls are oracle parameters (`fetch` functions), and the
  stateful operations return the request they would submit.
-/

/-! ## JS string primitives -/

abbrev JSStr := List Char

/-- ECMAScript white space and line terminators (the code points accepted
by `String.prototype.trim` and `\s`). -/
def isJsWS (c : Char) : Bool :=
  c = ' ' || c = '\t' || c = '\n' || c = '\r' ||
  c = Char.ofNat 11 || c = Char.ofNat 12 || c = Char.ofNat 0xa0 ||
  c = Char.ofNat 0x1680 ||
  (Char.ofNat 0x2000 ≤ c && c ≤ Char.ofNat 0x200a) ||
  c = Char.ofNat 0x2028 || c = Char.ofNat 0x2029 ||
  c = Char.ofNat 0x202f || c = Char.ofNat 0x205f ||
  c = Char.ofNat 0x3000 || c = Char.ofNat 0xfeff

/-- `String.prototype.trim`. -/
def jsTrim (s : JSStr) : JSStr :=
  ((s.dropWhile isJsWS).reverse.dropWhile isJsWS).reverse

/-- `String.prototype.includes pat` (substring containment at any position,
including the position at the end of the string). -/
def jsIncludes (pat : JSStr) : JSStr → Bool
  | [] => pat.isEmpty
  | s@(_ :: rest) => pat.isPrefixOf s || jsIncludes pat rest

/-- `String.prototype.replace(/pat/g, r)` for a fixed pattern `p :: ps`:
leftmost, non-overlapping replacement, resuming after each replacement.
The `fuel` argument (instantiated with the string's length, which bounds
the number of recursive steps) only makes the recursion structural. -/
def replaceAllFuel (p : Char) (ps r : JSStr) : Nat → JSStr → JSStr
  | _, [] => []
  | 0, l => l
  | fuel + 1, c :: s =>
    if (p :: ps).isPrefixOf (c :: s) then
      r ++ replaceAllFuel p ps r fuel (s.drop ps.length)
    else c :: replaceAllFuel p ps r fuel s

def replaceAll (p : Char) (ps r : JSStr) (s : JSStr) : JSStr :=
  replaceAllFuel p ps r s.length s

/-- `substring(a, b)` of the source (indices clamped to the string). -/
def jsSubstring (s : JSStr) (a b : Nat) : JSStr := (s.take b).drop a

/-! ## JS numbers (`Option Int`, `none` = `NaN`) and dates -/

abbrev JSNum := Option Int

/-- `parseInt(s)` (radix 10): skip white space, optional sign, then the
maximal run of leading decimal digits; `NaN` when there is none. -/
def parseIntOpt (s : JSStr) : JSNum :=
  let t := s.dropWhile isJsWS
  let signed : Int × JSStr :=
    match t with
    | '-' :: r => (-1, r)
    | '+' :: r => (1, r)
    | _ => (1, t)
  let digits := signed.2.takeWhile Char.isDigit
  if digits.isEmpty then none
  else some (signed.1 * (digits.foldl (fun a c => 10 * a + (c.toNat - 48)) 0 : Nat))

/-- A JS `Date`: epoch milliseconds, `none` = Invalid Date. -/
abbrev JSDate := Option Int

/-- Civil date (year, month 1..12, day) of a day number counted from
1970-01-01, proleptic Gregorian (the calendar used by ECMAScript dates). -/
def civilFromDays (z : Int) : Int × Int × Int :=
  let z' := z + 719468
  let era := Int.fdiv z' 146097
  let doe := z' - era * 146097
  let yoe := Int.fdiv (doe - Int.fdiv doe 1460 + Int.fdiv doe 36524 - Int.fdiv doe 146096) 365
  let y := yoe + era * 400
  let doy := doe - (365 * yoe + Int.fdiv yoe 4 - Int.fdiv yoe 100)
  let mp := Int.fdiv (5 * doy + 2) 153
  let d := doy - Int.fdiv (153 * mp + 2) 5 + 1
  let m := if mp < 10 then mp + 3 else mp - 9
  (y + (if m ≤ 2 then 1 else 0), m, d)

/-- Day number (from 1970-01-01) of a civil date, proleptic Gregorian. -/
def daysFromCivil (y m d : Int) : Int :=
  let y' := y - (if m ≤ 2 then 1 else 0)
  let era := Int.fdiv y' 400
  let yoe := y' - era * 400
  let mp := if 2 < m then m - 3 else m + 9
  let doy := Int.fdiv (153 * mp + 2) 5 + d - 1
  let doe := yoe * 365 + Int.fdiv yoe 4 - Int.fdiv yoe 100 + doy
  era * 146097 + doe - 719468

/-- ECMAScript `MakeDay`/`MakeTime`: epoch milliseconds of given UTC
calendar fields, with month overflow normalisation. -/
def makeUTCms (y mo d h mi s : Int) : Int :=
  let ym := y + Int.fdiv mo 12
  let mn := Int.emod mo 12
  (daysFromCivil ym (mn + 1) 1 + (d - 1)) * 86400000 +
    h * 3600000 + mi * 60000 + s * 1000

/-- ECMAScript two-digit-year rule of the `Date` constructors. -/
def twoDigitYearFix (y : Int) : Int := if 0 ≤ y ∧ y ≤ 99 then y + 1900 else y

/-- ECMAScript `TimeClip`: dates beyond ±8.64e15 ms are Invalid. -/
def timeClip (t : Int) : JSDate :=
  if t.natAbs ≤ 8640000000000000 then some t else none

/-- `Date.UTC(y, mo, d, h, mi, s)` (any `NaN` argument gives `NaN`). -/
def dateUTC (y mo d h mi s : JSNum) : JSDate :=
  match y, mo, d, h, mi, s with
  | some y, some mo, some d, some h, some mi, some s =>
    timeClip (makeUTCms (twoDigitYearFix y) mo d h mi s)
  | _, _, _, _, _, _ => none

/-- `new Date(y, mo, d, h, mi, s)`: local-time construction, modelled with
a fixed offset `tz` (milliseconds east of UTC). -/
def dateLocal (tz : Int) (y mo d h mi s : JSNum) : JSDate :=
  match y, mo, d, h, mi, s with
  | some y, some mo, some d, some h, some mi, some s =>
    timeClip (makeUTCms (twoDigitYearFix y) mo d h mi s - tz)
  | _, _, _, _, _, _ => none

def epochDay (t : Int) : Int := Int.fdiv t 86400000

def msOfDay (t : Int) : Int := Int.emod t 86400000

def getUTCFullYear : JSDate → JSNum
  | none => none
  | some t => some (civilFromDays (epochDay t)).1

def getUTCMonth : JSDate → JSNum
  | none => none
  | some t => some ((civilFromDays (epochDay t)).2.1 - 1)

def getUTCDate : JSDate → JSNum
  | none => none
  | some t => some (civilFromDays (epochDay t)).2.2

def getUTCHours : JSDate → JSNum
  | none => none
  | some t => some (Int.fdiv (msOfDay t) 3600000)

def getUTCMinutes : JSDate → JSNum
  | none => none
  | some t => some (Int.fdiv (Int.emod (msOfDay t) 3600000) 60000)

def getUTCSeconds : JSDate → JSNum
  | none => none
  | some t => some (Int.fdiv (Int.emod (msOfDay t) 60000) 1000)

/-- `String(n)` for an integral JS number (`NaN` prints as `"NaN"`). -/
def numToJsString : JSNum → JSStr
  | none => "NaN".toList
  | some i => (toString i).toList

/-- `padStart(2, '0')`. -/
def padStart2 (s : JSStr) : JSStr :=
  if 2 ≤ s.length then s else List.replicate (2 - s.length) '0' ++ s

/-! ## The ICS escaping of `caldav-client.ts` -/

/-- `escapeICS`: backslash, then `;`, then `,`, then newline, in the
source's order. -/
def escapeICS (text : JSStr) : JSStr :=
  replaceAll '\n' [] ['\\', 'n']
    (replaceAll ',' [] ['\\', ',']
      (replaceAll ';' [] ['\\', ';']
        (replaceAll '\\' [] ['\\', '\\'] text)))

/-- `unescapeICS`: `\n`, then `\,`, then `\;`, then `\\`, in the
source's order. -/
def unescapeICS (text : JSStr) : JSStr :=
  replaceAll '\\' ['\\'] ['\\']
    (replaceAll '\\' [';'] [';']
      (replaceAll '\\' [','] [',']
        (replaceAll '\\' ['n'] ['\n'] text)))

/-! ## The regular-expression scanners of `parseCalendarObject`

`FIELD:(.+?)(?:\r?\n)` matches, at the leftmost possible position, the
label, then a lazy non-empty run of non-line-terminator characters, then
an optional `\r` and a `\n`. -/

def isDotChar (c : Char) : Bool := c ≠ '\n' && c ≠ '\r'

/-- Lazy `(.+?)(?:\r?\n)` after one character has been captured: returns
the capture and the consumed terminator. -/
def lineCapLoop (acc : JSStr) : JSStr → Option (JSStr × JSStr)
  | [] => none
  | '\n' :: _ => some (acc.reverse, ['\n'])
  | '\r' :: rest =>
    match rest with
    | '\n' :: _ => some (acc.reverse, ['\r', '\n'])
    | _ => none
  | c :: rest => lineCapLoop (c :: acc) rest

/-- `(.+?)(?:\r?\n)` (without the dot-all flag). -/
def captureLine : JSStr → Option (JSStr × JSStr)
  | [] => none
  | c :: rest => if isDotChar c then lineCapLoop [c] rest else none

/-- Leftmost match of `label(.+?)(?:\r?\n)`, returning the capture. -/
def findField (label : JSStr) : JSStr → Option JSStr
  | [] => none
  | s@(_ :: rest) =>
    if label.isPrefixOf s then
      match captureLine (s.drop label.length) with
      | some cap => some cap.1
      | none => findField label rest
    else findField label rest

/-- The optional parameter group and colon `(?:;[^:]+)?:` of the
`DTSTART`/`DTEND` patterns; returns the consumed text (including the
colon) and the remainder. `[^:]` matches every character except `:`. -/
def dtParamsColon : JSStr → Option (JSStr × JSStr)
  | ':' :: rest => some ([':'], rest)
  | ';' :: rest =>
    let run := rest.takeWhile (fun c => c ≠ ':')
    if run.isEmpty then none
    else
      match rest.drop run.length with
      | ':' :: rest2 => some (';' :: (run ++ [':']), rest2)
      | _ => none
  | _ => none

/-- Leftmost match of `label(?:;[^:]+)?:(.+?)(?:\r?\n)`, returning the
whole matched text and the capture. -/
def findDt (label : JSStr) : JSStr → Option (JSStr × JSStr)
  | [] => none
  | s@(_ :: rest) =>
    if label.isPrefixOf s then
      match dtParamsColon (s.drop label.length) with
      | some pc =>
        match captureLine pc.2 with
        | some capTerm => some (label ++ pc.1 ++ capTerm.1 ++ capTerm.2, capTerm.1)
        | none => findDt label rest
      | none => findDt label rest
    else findDt label rest

def isUpperAZ (c : Char) : Bool := 'A' ≤ c && c ≤ 'Z'

/-- Terminator `\r?\n(?=[A-Z])` of the `DESCRIPTION` pattern. -/
def descTerm : JSStr → Bool
  | '\n' :: c :: _ => isUpperAZ c
  | '\r' :: '\n' :: c :: _ => isUpperAZ c
  | _ => false

/-- Lazy dot-all `(.+?)` after one captured character, stopping at the
first `\r?\n` that is followed by an upper-case letter. -/
def descLoop (acc : JSStr) : JSStr → Option JSStr
  | [] => none
  | l@(c :: rest) => if descTerm l then some acc.reverse else descLoop (c :: acc) rest

/-- `(.+?)(?:\r?\n(?=[A-Z]))` with the dot-all flag. -/
def captureDesc : JSStr → Option JSStr
  | [] => none
  | c :: rest => descLoop [c] rest

/-- Leftmost match of `DESCRIPTION:(.+?)(?:\r?\n(?=[A-Z]))/s`. -/
def findDesc (label : JSStr) : JSStr → Option JSStr
  | [] => none
  | s@(_ :: rest) =>
    if label.isPrefixOf s then
      match captureDesc (s.drop label.length) with
      | some cap => some cap
      | none => findDesc label rest
    else findDesc label rest

/-! ## `parseICSDate` -/

/-- `parseICSDate` of `caldav-client.ts`. `none` is the source's `null`;
`some none` is a returned Invalid Date. -/
def parseICSDate (tz : Int) (dateStr : JSStr) : Option JSDate :=
  if dateStr.isEmpty then none
  else if dateStr.length == 8 then
    let year := parseIntOpt (jsSubstring dateStr 0 4)
    let month := (parseIntOpt (jsSubstring dateStr 4 6)).map (· - 1)
    let day := parseIntOpt (jsSubstring dateStr 6 8)
    some (dateLocal tz year month day (some 0) (some 0) (some 0))
  else if dateStr.contains 'T' then
    let year := parseIntOpt (jsSubstring dateStr 0 4)
    let month := (parseIntOpt (jsSubstring dateStr 4 6)).map (· - 1)
    let day := parseIntOpt (jsSubstring dateStr 6 8)
    let hour := parseIntOpt (jsSubstring dateStr 9 11)
    let minute := parseIntOpt (jsSubstring dateStr 11 13)
    let second : JSNum := some ((parseIntOpt (jsSubstring dateStr 13 15)).getD 0)
    if dateStr.getLast? = some 'Z' then
      some (dateUTC year month day hour minute second)
    else
      some (dateLocal tz year month day hour minute second)
  else none

/-! ## The event data model and `buildICS` -/

structure Attendee where
  email : JSStr
  name : Option JSStr := none
deriving DecidableEq, Repr

/-- The argument record of `buildICS` (the `CalendarEvent`-shaped value the
client re-encodes). `end_` is the source's `end` field. -/
structure ICSEventInput where
  uid : JSStr
  summary : JSStr
  description : Option JSStr := none
  location : Option JSStr := none
  start : JSDate
  end_ : JSDate
  allDay : Option Bool := none
  attendees : Option (List Attendee) := none
deriving DecidableEq, Repr

/-- JS truthiness of an optional string (`undefined` and `''` are falsy). -/
def jsTruthyStr : Option JSStr → Bool
  | none => false
  | some s => !s.isEmpty

/-- JS truthiness of an optional boolean. -/
def jsTruthyBool : Option Bool → Bool
  | none => false
  | some b => b

/-- `formatICSDate` of `caldav-client.ts`. -/
def formatICSDate (date : JSDate) (dateOnly : Bool) : JSStr :=
  let year := numToJsString (getUTCFullYear date)
  let month := padStart2 (numToJsString ((getUTCMonth date).map (· + 1)))
  let day := padStart2 (numToJsString (getUTCDate date))
  if dateOnly then year ++ month ++ day
  else
    let hour := padStart2 (numToJsString (getUTCHours date))
    let minute := padStart2 (numToJsString (getUTCMinutes date))
    let second := padStart2 (numToJsString (getUTCSeconds date))
    year ++ month ++ day ++ ['T'] ++ hour ++ minute ++ second ++ ['Z']

/-- One `ATTENDEE` line (without its leading newline). -/
def attendeeLine (a : Attendee) : JSStr :=
  "ATTENDEE".toList ++
    (if jsTruthyStr a.name then ";CN=".toList ++ escapeICS (a.name.getD []) else []) ++
    ":mailto:".toList ++ a.email

/-- `buildICS` of `caldav-client.ts`; `now` stands for the source's
`new Date()` used for `DTSTAMP`. -/
def buildICS (event : ICSEventInput) (now : JSDate) : JSStr :=
  let dtstamp := formatICSDate now false
  let dtstart :=
    if jsTruthyBool event.allDay then
      "DTSTART;VALUE=DATE:".toList ++ formatICSDate event.start true
    else "DTSTART:".toList ++ formatICSDate event.start false
  let dtend :=
    if jsTruthyBool event.allDay then
      "DTEND;VALUE=DATE:".toList ++ formatICSDate event.end_ true
    else "DTEND:".toList ++ formatICSDate event.end_ false
  let ics :=
    "BEGIN:VCALENDAR\nVERSION:2.0\nPRODID:-//Novique.ai//Fastmail MCP Server//EN\nBEGIN:VEVENT\nUID:".toList ++
    event.uid ++ "\nDTSTAMP:".toList ++ dtstamp ++ ['\n'] ++ dtstart ++ ['\n'] ++ dtend ++
    "\nSUMMARY:".toList ++ escapeICS event.summary
  let ics :=
    if jsTruthyStr event.description then
      ics ++ "\nDESCRIPTION:".toList ++ escapeICS (event.description.getD [])
    else ics
  let ics :=
    if jsTruthyStr event.location then
      ics ++ "\nLOCATION:".toList ++ escapeICS (event.location.getD [])
    else ics
  let ics :=
    match event.attendees with
    | some atts => atts.foldl (fun acc a => acc ++ ['\n'] ++ attendeeLine a) ics
    | none => ics
  ics ++ "\nEND:VEVENT\nEND:VCALENDAR".toList

/-! ## `parseCalendarObject` -/

/-- A fetched DAV object as the client sees it. -/
structure DAVObject where
  url : JSStr
  etag : Option JSStr := none
  data : Option JSStr := none
deriving DecidableEq, Repr

/-- The decoded `CalendarEvent` of `caldav-client.ts` (the fields
`parseCalendarObject` produces). `end_` is the source's `end`. -/
structure CalendarEvent where
  id : JSStr
  uid : JSStr
  etag : JSStr
  url : JSStr
  summary : JSStr
  description : Option JSStr := none
  location : Option JSStr := none
  start : JSDate
  end_ : JSDate
  allDay : Bool
  status : Option JSStr := none
  raw : Option JSStr := none
deriving DecidableEq, Repr

/-- `parseCalendarObject` of `caldav-client.ts`. The local-time branch of
date parsing uses the fixed offset `tz`. -/
def parseCalendarObject (tz : Int) (obj : DAVObject) : Option CalendarEvent :=
  if !jsTruthyStr obj.data then none
  else
    let data := obj.data.getD []
    let uid :=
      match findField "UID:".toList data with
      | some m => jsTrim m
      | none => []
    let summary :=
      match findField "SUMMARY:".toList data with
      | some m => unescapeICS (jsTrim m)
      | none => "No Title".toList
    let description := (findDesc "DESCRIPTION:".toList data).map fun m => unescapeICS (jsTrim m)
    let location := (findField "LOCATION:".toList data).map fun m => unescapeICS (jsTrim m)
    let startM := findDt "DTSTART".toList data
    let startStr :=
      match startM with
      | some wc => jsTrim wc.2
      | none => []
    let allDay :=
      match startM with
      | some wc => jsIncludes "VALUE=DATE".toList wc.1 && !jsIncludes "VALUE=DATE-TIME".toList wc.1
      | none => false
    let endM := findDt "DTEND".toList data
    let endStr :=
      match endM with
      | some wc => jsTrim wc.2
      | none => startStr
    let status := (findField "STATUS:".toList data).map jsTrim
    match parseICSDate tz startStr, parseICSDate tz endStr with
    | some s, some e =>
      some { id := obj.url, uid := uid, etag := obj.etag.getD [], url := obj.url,
             summary := summary, description := description, location := location,
             start := s, end_ := e, allDay := allDay, status := status,
             raw := some data }
    | _, _ => none

/-! ## The protocol session operations -/

/-- A discovered calendar as cached by the client (`this.calendars`). -/
structure DAVCalendar where
  url : JSStr
  displayName : JSStr := []
deriving DecidableEq, Repr

/-- JS `x || d` for an optional string (`undefined` and `''` fall back). -/
def jsOrStr (x : Option JSStr) (d : JSStr) : JSStr :=
  match x with
  | some s => if s.isEmpty then d else s
  | none => d

/-- `Array.prototype.join(', ')`. -/
def joinComma : List JSStr → JSStr
  | [] => []
  | [x] => x
  | x :: xs => x ++ ", ".toList ++ joinComma xs

/-- The argument record of `createEvent`. -/
structure CreateEventOptions where
  calendarId : JSStr
  summary : JSStr
  description : Option JSStr := none
  location : Option JSStr := none
  start : JSDate
  end_ : JSDate
  allDay : Option Bool := none
  attendees : Option (List Attendee) := none
deriving DecidableEq, Repr

/-- The `createCalendarObject` request `createEvent` would submit. -/
structure CreateAction where
  calendar : DAVCalendar
  filename : JSStr
  iCalString : JSStr
deriving DecidableEq, Repr

/-- The calendar lookup of `createEvent`: exact `url === calendarId` match
first, then the bidirectional-substring partial match, then the error
naming the requested id and every known id. -/
def resolveCreateCalendar (cals : List DAVCalendar) (calendarId : JSStr) :
    Except JSStr DAVCalendar :=
  match cals.find? (fun c => c.url == calendarId) with
  | some c => .ok c
  | none =>
    match cals.find? (fun c => jsIncludes calendarId c.url || jsIncludes c.url calendarId) with
    | some c => .ok c
    | none =>
      .error ("Calendar not found. Requested: ".toList ++ calendarId ++
        ", Available: ".toList ++ joinComma (cals.map (·.url)))

/-- `createEvent` + `createEventInCalendar` of `caldav-client.ts`; `uid`
stands for the generated `generateUID()` value and `now` for `new Date()`. -/
def createEvent (cals : List DAVCalendar) (opts : CreateEventOptions)
    (uid : JSStr) (now : JSDate) : Except JSStr CreateAction :=
  (resolveCreateCalendar cals opts.calendarId).map fun cal =>
    { calendar := cal,
      filename := uid ++ ".ics".toList,
      iCalString := buildICS
        { uid := uid, summary := opts.summary, description := opts.description,
          location := opts.location, start := opts.start, end_ := opts.end_,
          allDay := opts.allDay, attendees := opts.attendees } now }

/-- The argument record of `updateEvent`. -/
structure UpdateEventOptions where
  calendarId : JSStr
  eventUrl : JSStr
  etag : Option JSStr := none
  summary : Option JSStr := none
  description : Option JSStr := none
  location : Option JSStr := none
  start : Option JSDate := none
  end_ : Option JSDate := none
  allDay : Option Bool := none
deriving DecidableEq, Repr

/-- The `updateCalendarObject` request `updateEvent` would submit. -/
structure WriteAction where
  url : JSStr
  etag : JSStr
  data : JSStr
deriving DecidableEq, Repr

/-- `updateEvent` of `caldav-client.ts`. The calendar lookup is exact-match
only; `fetched` is the result of the source's `this.getEvent` call, and
`now` the `new Date()` of the re-encoding. The merge uses `??` for the
event fields and `||` for the etag, as in the source. -/
def updateEvent (cals : List DAVCalendar) (fetched : Option CalendarEvent)
    (opts : UpdateEventOptions) (now : JSDate) : Except JSStr WriteAction :=
  match cals.find? (fun c => c.url == opts.calendarId) with
  | none => .error "Calendar not found".toList
  | some _ =>
    match fetched with
    | none => .error "Event not found".toList
    | some existingEvent =>
      let updatedEvent : ICSEventInput :=
        { uid := existingEvent.uid,
          summary := opts.summary.getD existingEvent.summary,
          description :=
            match opts.description with
            | some d => some d
            | none => existingEvent.description,
          location :=
            match opts.location with
            | some l => some l
            | none => existingEvent.location,
          start := opts.start.getD existingEvent.start,
          end_ := opts.end_.getD existingEvent.end_,
          allDay := some (opts.allDay.getD existingEvent.allDay) }
      .ok { url := opts.eventUrl,
            etag := jsOrStr opts.etag existingEvent.etag,
            data := buildICS updatedEvent now }

/-- The `deleteCalendarObject` request `deleteEvent` would submit. -/
structure DeleteAction where
  url : JSStr
  etag : JSStr
deriving DecidableEq, Repr

/-- `deleteEvent` of `caldav-client.ts`: the `calendarId` argument is
never consulted; the conditional token is `etag || ''`. -/
def deleteEvent (calendarId eventUrl : JSStr) (etag : Option JSStr) : DeleteAction :=
  { url := eventUrl, etag := jsOrStr etag [] }

/-! ## `listEvents`

`Array.prototype.sort` is a stable comparator sort; for a consistent
comparator its result is uniquely determined, so it is modelled by a
stable insertion sort. The comparator is
`(a, b) => a.start.getTime() - b.start.getTime()`, and a `NaN` comparator
value is treated as `0` by the ECMAScript sort. -/

def orderedInsert (le : α → α → Bool) (a : α) : List α → List α
  | [] => [a]
  | b :: l => if le a b then a :: b :: l else b :: orderedInsert le a l

def insertionSort (le : α → α → Bool) : List α → List α
  | [] => []
  | a :: l => orderedInsert le a (insertionSort le l)

/-- The listing comparator, as a `≤ 0` test of
`a.start.getTime() - b.start.getTime()` (`NaN` counts as `0`). -/
def startLe (a b : CalendarEvent) : Bool :=
  match a.start, b.start with
  | some x, some y => x - y ≤ 0
  | _, _ => true

/-- `listEvents` of `caldav-client.ts`, after initialization: `fetch` is
the per-calendar `fetchCalendarObjects` call (already specialised to the
requested time range), whose failure models a thrown transport error. A
failing calendar contributes nothing; every fetched object is parsed and
the non-null results are collected, then sorted by start. -/
def listEvents (tz : Int) (cals : List DAVCalendar)
    (fetch : DAVCalendar → Except JSStr (List DAVObject))
    (calendarId : Option JSStr) : List CalendarEvent :=
  let calendarsToQuery : List DAVCalendar :=
    match calendarId with
    | some id => cals.filter (fun c => c.url == id)
    | none => cals
  let allEvents := calendarsToQuery.foldl
    (fun acc cal =>
      match fetch cal with
      | .ok objects => acc ++ objects.filterMap (parseCalendarObject tz)
      | .error _ => acc)
    []
  insertionSort startLe allEvents

/-! ## The `check_availability` tool handler -/

/-- JS `<` on two dates (`false` when either is Invalid). -/
def jsDateLt (a b : JSDate) : Bool :=
  match a, b with
  | some x, some y => x < y
  | _, _ => false

/-- JS `>` on two dates (`false` when either is Invalid). -/
def jsDateGt (a b : JSDate) : Bool :=
  match a, b with
  | some x, some y => y < x
  | _, _ => false

/-- A proposed slot, after the handler's `new Date(slot.start)` /
`new Date(slot.end)` conversions. -/
structure ProposedSlot where
  start : JSDate
  end_ : JSDate
deriving DecidableEq, Repr

/-- A reported conflict (the handler renders `start`/`end` with
`toISOString()`; the instant itself is carried here). -/
structure ConflictInfo where
  summary : JSStr
  start : JSDate
  end_ : JSDate
deriving DecidableEq, Repr

structure SlotResult where
  proposedStart : JSDate
  proposedEnd : JSDate
  available : Bool
  conflicts : List ConflictInfo
deriving DecidableEq, Repr

structure AvailabilityReport where
  totalSlots : Nat
  availableSlots : Nat
  results : List SlotResult
deriving DecidableEq, Repr

/-- The conflict test of the handler:
`eventStart < end && eventEnd > start` for the slot's `start`/`end`. -/
def slotConflict (slotStart slotEnd : JSDate) (event : CalendarEvent) : Bool :=
  jsDateLt event.start slotEnd && jsDateGt event.end_ slotStart

/-- The `check_availability` handler: `fetchEvents` is the
`calendar.listEvents {startDate, endDate}` call (no calendar filter). -/
def checkAvailability (fetchEvents : JSDate → JSDate → List CalendarEvent)
    (proposedTimes : List ProposedSlot) : AvailabilityReport :=
  let results := proposedTimes.map fun slot =>
    let events := fetchEvents slot.start slot.end_
    let conflicts := events.filter (slotConflict slot.start slot.end_)
    { proposedStart := slot.start, proposedEnd := slot.end_,
      available := conflicts.length == 0,
      conflicts := conflicts.map fun c => ConflictInfo.mk c.summary c.start c.end_ }
  { totalSlots := proposedTimes.length,
    availableSlots := (results.filter (·.available)).length,
    results := results }

/-! ## The `detect_scheduling_email` tool handler -/

/-- The apostrophe character, written by code point. -/
def apos : Char := Char.ofNat 39

/-- `toLowerCase`, restricted to the ASCII mapping. -/
def jsToLower (s : JSStr) : JSStr := s.map Char.toLower

/-- The handler's fixed keyword list (`schedulingKeywords`). -/
def schedulingKeywords : List JSStr :=
  ["schedule".toList, "meeting".toList, "call".toList, "appointment".toList,
   "calendar".toList,
   "available".toList, "availability".toList, "free time".toList, "slot".toList,
   "book".toList, "reserve".toList, "set up".toList, "arrange".toList,
   "monday".toList, "tuesday".toList, "wednesday".toList, "thursday".toList,
   "friday".toList, "saturday".toList, "sunday".toList,
   "morning".toList, "afternoon".toList, "evening".toList,
   "am".toList, "pm".toList, "o".toList ++ [apos] ++ "clock".toList,
   ":00".toList, ":30".toList,
   "next week".toList, "this week".toList, "tomorrow".toList, "today".toList,
   "zoom".toList, "teams".toList, "google meet".toList, "video call".toList,
   "phone call".toList,
   "let".toList ++ [apos] ++ "s meet".toList, "can we meet".toList,
   "would like to meet".toList,
   "discuss".toList, "chat".toList, "talk".toList, "connect".toList,
   "catch up".toList,
   "propose".toList, "suggest".toList, "how about".toList,
   "does .* work".toList]

/-- `.*` followed by `post` (test-existence semantics of a greedy dot
star without the dot-all flag, dots excluding line terminators). -/
def dotStarThen (post : JSStr) : JSStr → Bool
  | [] => post.isEmpty
  | l@(c :: rest) => post.isPrefixOf l || (isDotChar c && dotStarThen post rest)

/-- `new RegExp(pre ++ ".*" ++ post).test text` for literal `pre`/`post`
(the only keyword built as a regex is `does .* work`). -/
def regexDotStarTest (pre post : JSStr) : JSStr → Bool
  | [] => pre.isEmpty && post.isEmpty
  | l@(_ :: rest) =>
    (pre.isPrefixOf l && dotStarThen post (l.drop pre.length)) ||
      regexDotStarTest pre post rest

/-- Index of the first occurrence of `pat`. -/
def idxOfSub (pat : JSStr) : JSStr → Option Nat
  | [] => if pat.isEmpty then some 0 else none
  | s@(_ :: rest) =>
    if pat.isPrefixOf s then some 0
    else (idxOfSub pat rest).map (· + 1)

/-- A keyword match: keywords containing `.*` are compiled as a regex,
`new RegExp(kw).test(fullText)`; the others use substring containment. -/
def keywordMatches (fullText kw : JSStr) : Bool :=
  if jsIncludes ".*".toList kw then
    match idxOfSub ".*".toList kw with
    | some i => regexDotStarTest (kw.take i) (kw.drop (i + 2)) fullText
    | none => false
  else jsIncludes kw fullText

/-- Scan every suffix of the text for a position-anchored match. -/
def scanPos (p : JSStr → Bool) : JSStr → Bool
  | [] => p []
  | l@(_ :: rest) => p l || scanPos p rest

/-- Anchored `\d{1,2}:\d{2}` (the trailing `\s*(am|pm)?` of the source
pattern matches the empty string, so it does not constrain `test`). -/
def timeColonAt (l : JSStr) : Bool :=
  (match l with
   | d1 :: ':' :: d2 :: d3 :: _ => d1.isDigit && d2.isDigit && d3.isDigit
   | _ => false) ||
  (match l with
   | d1 :: d2 :: ':' :: d3 :: d4 :: _ =>
     d1.isDigit && d2.isDigit && d3.isDigit && d4.isDigit
   | _ => false)

/-- `\s*` then `am`/`pm` (`am`/`pm` begin with non-space characters, so
the greedy space run is the maximal one). -/
def amPmAfter (r : JSStr) : Bool :=
  let r' := r.dropWhile isJsWS
  "am".toList.isPrefixOf r' || "pm".toList.isPrefixOf r'

/-- Anchored `\d{1,2}\s*(am|pm)`. -/
def amPmAt (l : JSStr) : Bool :=
  match l with
  | d1 :: rest =>
    d1.isDigit &&
      (amPmAfter rest ||
        match rest with
        | d2 :: rest2 => d2.isDigit && amPmAfter rest2
        | [] => false)
  | [] => false

def monthNames : List JSStr :=
  ["january".toList, "february".toList, "march".toList, "april".toList,
   "may".toList, "june".toList, "july".toList, "august".toList,
   "september".toList, "october".toList, "november".toList, "december".toList]

/-- `\s*(month name)` (a month name begins with a non-space character). -/
def monthAfter (r : JSStr) : Bool :=
  let r2 := r.dropWhile isJsWS
  monthNames.any (fun m => m.isPrefixOf r2)

/-- `\s*(of)?\s*(month name)`. -/
def ofMonthAfter (r : JSStr) : Bool :=
  let r1 := r.dropWhile isJsWS
  monthAfter r1 || ("of".toList.isPrefixOf r1 && monthAfter (r1.drop 2))

def ordSuffixes : List JSStr := ["st".toList, "nd".toList, "rd".toList, "th".toList]

/-- Anchored `\d{1,2}(st|nd|rd|th)?\s*(of)?\s*(month name)`. -/
def dayMonthAt (l : JSStr) : Bool :=
  match l with
  | d1 :: rest =>
    d1.isDigit &&
      (dayMonthAfterDigits rest ||
        match rest with
        | d2 :: rest2 => d2.isDigit && dayMonthAfterDigits rest2
        | [] => false)
  | [] => false
where
  dayMonthAfterDigits (r : JSStr) : Bool :=
    ofMonthAfter r ||
      (ordSuffixes.any (fun suf => suf.isPrefixOf r) && ofMonthAfter (r.drop 2))

/-- Anchored `(month name)\s*\d{1,2}`. -/
def monthDayAt (l : JSStr) : Bool :=
  monthNames.any fun m =>
    m.isPrefixOf l &&
      (match (l.drop m.length).dropWhile isJsWS with
       | d :: _ => d.isDigit
       | [] => false)

/-- Anchored `\d{1,2}\/\d{1,2}` (the trailing `(\/\d{2,4})?` matches the
empty string, so it does not constrain `test`). -/
def slashDateAt (l : JSStr) : Bool :=
  (match l with
   | a :: '/' :: b :: _ => a.isDigit && b.isDigit
   | _ => false) ||
  (match l with
   | a :: a2 :: '/' :: b :: _ => a.isDigit && a2.isDigit && b.isDigit
   | _ => false)

/-- The handler's fixed `timePatterns` array, as whole-text tests, in
source order. The `/i` flags are realised by the lower-case pattern
alternatives, since the scanned text is already lower-cased. -/
def timePatterns : List (JSStr → Bool) :=
  [scanPos timeColonAt, scanPos amPmAt, scanPos dayMonthAt,
   scanPos monthDayAt, scanPos slashDateAt]

inductive Confidence where
  | HIGH
  | MEDIUM
  | LOW
deriving DecidableEq, Repr

/-- The fields of the handler's JSON reply that the detection computes. -/
structure DetectionOutcome where
  hasSchedulingIntent : Bool
  confidence : Confidence
  keywordsFound : List JSStr
  timeReferencesFound : Bool
  keywordCount : Nat
deriving DecidableEq, Repr

/-- `` `${subject}\n${textContent}`.toLowerCase() ``. -/
def detectFullText (subject textContent : JSStr) : JSStr :=
  jsToLower (subject ++ '\n' :: textContent)

def foundKeywords (fullText : JSStr) : List JSStr :=
  schedulingKeywords.filter (keywordMatches fullText)

def foundTimePatternCount (fullText : JSStr) : Nat :=
  (timePatterns.filter (fun p => p fullText)).length

/-- The scoring of the `detect_scheduling_email` handler. -/
def detectScheduling (subject textContent : JSStr) : DetectionOutcome :=
  let fullText := detectFullText subject textContent
  let fk := foundKeywords fullText
  let ftCount := foundTimePatternCount fullText
  let hasIntent := decide (2 ≤ fk.length) || (decide (1 ≤ fk.length) && decide (1 ≤ ftCount))
  let confidence : Confidence :=
    if 3 ≤ fk.length ∧ 1 ≤ ftCount then .HIGH
    else if 2 ≤ fk.length ∨ 1 ≤ ftCount then .MEDIUM
    else .LOW
  { hasSchedulingIntent := hasIntent, confidence := confidence,
    keywordsFound := fk, timeReferencesFound := decide (0 < ftCount),
    keywordCount := fk.length }

/-! ## The `email_to_calendar` tool handler -/

/-- An address object of the mail client (passed through unchanged). -/
structure AddrObj where
  email : JSStr
  name : Option JSStr := none
deriving DecidableEq, Repr

/-- A body part reference of the mail client. -/
structure BodyPart where
  partId : JSStr
deriving DecidableEq, Repr

/-- The email record the handler reads (the fields it consults). -/
structure Email where
  subject : Option JSStr := none
  from_ : Option (List AddrObj) := none
  to_ : Option (List AddrObj) := none
  receivedAt : Option JSStr := none
  textBody : Option (List BodyPart) := none
  bodyValues : Option (List (JSStr × JSStr)) := none
deriving DecidableEq, Repr

/-- The handler's body-text extraction:
`email.bodyValues[email.textBody[0].partId]?.value || ''` guarded by
`email.textBody && email.textBody.length > 0 && email.bodyValues`. -/
def extractTextContent (email : Email) : JSStr :=
  match email.textBody, email.bodyValues with
  | some (p :: _), some bvs =>
    match bvs.lookup p.partId with
    | some v => v
    | none => []
  | _, _ => []

/-- The `extractedInfo` record the handler assembles. -/
structure ExtractedInfo where
  emailId : JSStr
  subject : Option JSStr
  from_ : Option AddrObj
  to_ : Option (List AddrObj)
  receivedAt : Option JSStr
  textContent : JSStr
  suggestedTitle : JSStr
  suggestedAttendees : List (Option AddrObj)
deriving DecidableEq, Repr

/-- `` `Meeting: ${email.subject}` `` (an absent subject interpolates as
the text `undefined`). -/
def suggestedTitleOf (subject : Option JSStr) : JSStr :=
  "Meeting: ".toList ++ (match subject with
    | some s => s
    | none => "undefined".toList)

def mkExtractedInfo (emailId : JSStr) (email : Email) : ExtractedInfo :=
  { emailId := emailId,
    subject := email.subject,
    from_ := email.from_.bind List.head?,
    to_ := email.to_,
    receivedAt := email.receivedAt,
    textContent := (extractTextContent email).take 2000,
    suggestedTitle := suggestedTitleOf email.subject,
    suggestedAttendees :=
      match email.from_ with
      | some l => [l.head?]
      | none => [] }

/-- The handler's reply. The handler issues no calendar write in any
branch: its only external call is the email fetch, and every branch
returns one of these payloads. -/
inductive EmailToCalendarResult where
  | emailNotFound
  | needsParsing (message : JSStr) (extractedInfo : ExtractedInfo) (instruction : JSStr)
  | preview (extractedInfo : ExtractedInfo) (instruction : JSStr)
deriving DecidableEq, Repr

def needsParsingMessage : JSStr :=
  "To create an event, use the schedule_meeting prompt or create_event tool with specific date/time extracted from this email.".toList

def needsParsingInstruction : JSStr :=
  "Parse the email content to extract: 1) Meeting date/time, 2) Duration, 3) Location/call link, 4) Attendees. Then use create_event with those details.".toList

def previewInstruction : JSStr :=
  "Review this email content and use create_event to schedule if appropriate. Set confirm=true after parsing date/time details.".toList

/-- The `email_to_calendar` handler. `fetchedEmail` is the result of the
`fastmail.getEmail` call; `calendarConfigured` is the truthiness of the
module-level `calendar` client (null when no app password is set);
`confirm` defaults to `false` at the call site. -/
def emailToCalendar (emailId : JSStr) (fetchedEmail : Option Email)
    (calendarConfigured : Bool) (confirm : Bool) : EmailToCalendarResult :=
  match fetchedEmail with
  | none => .emailNotFound
  | some email =>
    let extractedInfo := mkExtractedInfo emailId email
    if confirm && calendarConfigured then
      .needsParsing needsParsingMessage extractedInfo needsParsingInstruction
    else
      .preview extractedInfo previewInstruction

/-! ## Claim C1: the round-trip contract of the codec -/

/-- A timed event whose summary is a backslash followed by the letter `n`
(plain ASCII text containing a backslash). -/
def c1Event : ICSEventInput :=
  { uid := "evt-1".toList, summary := ['\\', 'n'],
    start := dateUTC (some 2024) (some 0) (some 1) (some 10) (some 0) (some 0),
    end_ := dateUTC (some 2024) (some 0) (some 1) (some 11) (some 0) (some 0) }

def c1Now : JSDate := dateUTC (some 2024) (some 0) (some 2) (some 3) (some 4) (some 5)

def c1Wire : DAVObject :=
  { url := "https://caldav.example/cal/evt-1.ics".toList,
    etag := some "etag-1".toList,
    data := some (buildICS c1Event c1Now) }

/-- C1: the round-trip contract `decode(encode(e))` fails on the code.
For the event whose summary is backslash-`n`, `escapeICS` emits `\\n`,
but `unescapeICS` replaces `\n` before `\\`, so the decoded summary is a
backslash followed by a newline — not the original text — although the
uid, start, end and allDay fields do survive. -/
theorem c1_roundtrip_code_bug :
    (parseCalendarObject 0 c1Wire).map (·.summary) = some ['\\', '\n'] ∧
    c1Event.summary = ['\\', 'n'] ∧
    (parseCalendarObject 0 c1Wire).map (·.summary) ≠ some c1Event.summary ∧
    (parseCalendarObject 0 c1Wire).map (·.uid) = some c1Event.uid ∧
    (parseCalendarObject 0 c1Wire).map (·.start) = some c1Event.start ∧
    (parseCalendarObject 0 c1Wire).map (·.end_) = some c1Event.end_ ∧
    (parseCalendarObject 0 c1Wire).map (·.allDay) = some false := by
  refine ⟨by exact rfl, by exact rfl, ?_, by exact rfl, by exact rfl, by exact rfl,
    by exact rfl⟩
  intro h
  rw [show (parseCalendarObject 0 c1Wire).map (·.summary) = some ['\\', '\n'] from rfl] at h
  simp [c1Event] at h

/-! ## Helper lemmas about `jsIncludes` and `joinComma` -/

theorem jsIncludes_of_eq_append (pat : JSStr) :
    ∀ pre post : JSStr, jsIncludes pat (pre ++ pat ++ post) = true := by
  intro pre
  induction pre with
  | nil =>
    intro post
    cases pat with
    | nil => cases post <;> simp [jsIncludes, List.isEmpty]
    | cons c cs =>
      show jsIncludes (c :: cs) ((c :: cs) ++ post) = true
      have h : (c :: cs).isPrefixOf ((c :: cs) ++ post) = true := by
        rw [List.isPrefixOf_iff_prefix]
        exact List.prefix_append _ _
      simp [jsIncludes, h]
  | cons c cs ih =>
    intro post
    have := ih post
    simp only [List.cons_append, jsIncludes, Bool.or_eq_true]
    right
    simpa using this

theorem joinComma_mem_split {s : JSStr} :
    ∀ {ls : List JSStr}, s ∈ ls → ∃ pre post, joinComma ls = pre ++ s ++ post := by
  intro ls
  induction ls with
  | nil => intro h; cases h
  | cons x xs ih =>
    intro h
    cases xs with
    | nil =>
      rcases List.mem_singleton.mp h with rfl
      exact ⟨[], [], by simp [joinComma]⟩
    | cons y ys =>
      rcases List.mem_cons.mp h with rfl | hmem
      · exact ⟨[], ", ".toList ++ joinComma (y :: ys), by simp [joinComma]⟩
      · rcases ih hmem with ⟨pre, post, heq⟩
        refine ⟨x ++ ", ".toList ++ pre, post, ?_⟩
        simp [joinComma, heq]

/-! ## Claim C2: calendar resolution for the mutation operations -/

def c2Cal : DAVCalendar := { url := "https://host/abc/".toList, displayName := "Personal".toList }

def c2Event : CalendarEvent :=
  { id := "https://host/abc/e1.ics".toList, uid := "u1".toList,
    etag := "tag1".toList, url := "https://host/abc/e1.ics".toList,
    summary := "Standup".toList, start := some 0, end_ := some 3600000,
    allDay := false }

def c2UpdateOpts : UpdateEventOptions :=
  { calendarId := "abc".toList, eventUrl := "https://host/abc/e1.ics".toList,
    summary := some "Renamed".toList }

/-- C2 counterexample: the claim says every mutation operation falls back
to bidirectional substring containment. For `updateEvent` with requested
id `abc` and the single known calendar `https://host/abc/`, the substring
condition holds, the event is fetchable, yet the operation fails with the
bare `Calendar not found` error (which names neither the requested id nor
the known ids). -/
theorem c2_update_no_fallback_counterexample :
    jsIncludes "abc".toList c2Cal.url = true ∧
    updateEvent [c2Cal] (some c2Event) c2UpdateOpts none =
      .error "Calendar not found".toList := by
  constructor
  · decide
  · rfl

/-- C2 amended: `createEvent` resolves the target calendar by exact
resource-id match first, then by bidirectional substring containment, and
otherwise fails with an error naming the requested id and every known
calendar id; `updateEvent` resolves by exact match only, failing with a
bare calendar-not-found error; `deleteEvent` performs no calendar
resolution at all (its result does not depend on the requested id). -/
theorem c2_mutation_calendar_resolution :
    (∀ (cals : List DAVCalendar) (opts : CreateEventOptions) (uid : JSStr) (now : JSDate),
      (∀ c, cals.find? (fun c' => c'.url == opts.calendarId) = some c →
        ∃ a, createEvent cals opts uid now = .ok a ∧ a.calendar = c) ∧
      (cals.find? (fun c' => c'.url == opts.calendarId) = none →
        ∀ c, cals.find?
            (fun c' => jsIncludes opts.calendarId c'.url || jsIncludes c'.url opts.calendarId) = some c →
          ∃ a, createEvent cals opts uid now = .ok a ∧ a.calendar = c) ∧
      (cals.find? (fun c' => c'.url == opts.calendarId) = none →
        cals.find?
            (fun c' => jsIncludes opts.calendarId c'.url || jsIncludes c'.url opts.calendarId) = none →
          ∃ msg, createEvent cals opts uid now = .error msg ∧
            jsIncludes opts.calendarId msg = true ∧
            ∀ c ∈ cals, jsIncludes c.url msg = true)) ∧
    (∀ (cals : List DAVCalendar) (fetched : Option CalendarEvent)
        (opts : UpdateEventOptions) (now : JSDate),
      cals.find? (fun c' => c'.url == opts.calendarId) = none →
        updateEvent cals fetched opts now = .error "Calendar not found".toList) ∧
    (∀ (calendarId calendarId' eventUrl : JSStr) (etag : Option JSStr),
      deleteEvent calendarId eventUrl etag = deleteEvent calendarId' eventUrl etag) := by
  refine ⟨fun cals opts uid now => ⟨?_, ?_, ?_⟩, ?_, ?_⟩
  · intro c hc
    simp only [createEvent, resolveCreateCalendar, hc, Except.map]
    exact ⟨_, rfl, rfl⟩
  · intro hnone c hc
    simp only [createEvent, resolveCreateCalendar, hnone, hc, Except.map]
    exact ⟨_, rfl, rfl⟩
  · intro hnone hnone2
    refine ⟨"Calendar not found. Requested: ".toList ++ opts.calendarId ++
      ", Available: ".toList ++ joinComma (cals.map (·.url)), ?_, ?_, ?_⟩
    · simp only [createEvent, resolveCreateCalendar, hnone, hnone2, Except.map]
    · have := jsIncludes_of_eq_append opts.calendarId
        "Calendar not found. Requested: ".toList
        (", Available: ".toList ++ joinComma (cals.map (·.url)))
      simpa [List.append_assoc] using this
    · intro c hmem
      have hm : c.url ∈ cals.map (·.url) := List.mem_map_of_mem _ hmem
      rcases joinComma_mem_split hm with ⟨pre, post, hj⟩
      rw [hj]
      have := jsIncludes_of_eq_append c.url
        ("Calendar not found. Requested: ".toList ++ opts.calendarId ++
          ", Available: ".toList ++ pre) post
      simpa [List.append_assoc] using this
  · intro cals fetched opts now hnone
    simp [updateEvent, hnone]
  · intro calendarId calendarId' eventUrl etag
    rfl

def c2CreateOptsExact : CreateEventOptions :=
  { calendarId := "https://host/abc/".toList, summary := "S".toList,
    start := some 0, end_ := some 3600000 }

def c2CreateOptsPartial : CreateEventOptions :=
  { calendarId := "abc".toList, summary := "S".toList,
    start := some 0, end_ := some 3600000 }

def c2CreateOptsMiss : CreateEventOptions :=
  { calendarId := "https://other/xyz/".toList, summary := "S".toList,
    start := some 0, end_ := some 3600000 }

/-- C2 witness: the amended resolution behaviour at concrete inputs —
an exact match, the spec's `abc` / `https://host/abc/` substring
fallback, a miss whose error names the requested and known ids, the
exact-only `updateEvent` failure, and `deleteEvent`'s independence of
the requested calendar id. -/
theorem c2_mutation_calendar_resolution_witness :
    (∃ a, createEvent [c2Cal] c2CreateOptsExact "u1".toList none = .ok a ∧ a.calendar = c2Cal) ∧
    (∃ a, createEvent [c2Cal] c2CreateOptsPartial "u1".toList none = .ok a ∧ a.calendar = c2Cal) ∧
    (∃ msg, createEvent [c2Cal] c2CreateOptsMiss "u1".toList none = .error msg ∧
      jsIncludes c2CreateOptsMiss.calendarId msg = true ∧
      ∀ c ∈ [c2Cal], jsIncludes c.url msg = true) ∧
    updateEvent [c2Cal] (some c2Event) c2UpdateOpts none = .error "Calendar not found".toList ∧
    deleteEvent "idA".toList "e1".toList none = deleteEvent "idB".toList "e1".toList none := by
  refine ⟨?_, ?_, ?_, ?_, ?_⟩
  · exact (c2_mutation_calendar_resolution.1 [c2Cal] c2CreateOptsExact "u1".toList none).1
      c2Cal (by decide)
  · exact (c2_mutation_calendar_resolution.1 [c2Cal] c2CreateOptsPartial "u1".toList none).2.1
      (by decide) c2Cal (by decide)
  · exact (c2_mutation_calendar_resolution.1 [c2Cal] c2CreateOptsMiss "u1".toList none).2.2
      (by decide) (by decide)
  · exact c2_mutation_calendar_resolution.2.1 [c2Cal] (some c2Event) c2UpdateOpts none (by decide)
  · exact c2_mutation_calendar_resolution.2.2 "idA".toList "idB".toList "e1".toList none

/-! ## Claim C4: the update semantics -/

/-- C4: on a resolvable calendar, `updateEvent` fails if the fetched
event is absent; otherwise it shallow-merges the caller-supplied fields
over the existing ones (an unset caller field retains the previous
value), re-encodes the merged event with `buildICS`, and submits a
conditional write to the event's url using the caller-supplied etag when
a non-empty one is given and otherwise the etag of the just-fetched copy
(the codebase represents "no etag" as the empty string). -/
theorem c4_update_merge_semantics :
    ∀ (cals : List DAVCalendar) (opts : UpdateEventOptions) (now : JSDate) (ev : CalendarEvent),
      (cals.find? (fun c => c.url == opts.calendarId)).isSome →
      updateEvent cals none opts now = .error "Event not found".toList ∧
      ∃ w : WriteAction, updateEvent cals (some ev) opts now = .ok w ∧
        w.url = opts.eventUrl ∧
        (∀ e, opts.etag = some e → e ≠ [] → w.etag = e) ∧
        (opts.etag = none → w.etag = ev.etag) ∧
        ∃ merged : ICSEventInput, w.data = buildICS merged now ∧
          merged.uid = ev.uid ∧
          (opts.summary = none → merged.summary = ev.summary) ∧
          (∀ v, opts.summary = some v → merged.summary = v) ∧
          (opts.description = none → merged.description = ev.description) ∧
          (∀ v, opts.description = some v → merged.description = some v) ∧
          (opts.location = none → merged.location = ev.location) ∧
          (∀ v, opts.location = some v → merged.location = some v) ∧
          (opts.start = none → merged.start = ev.start) ∧
          (∀ v, opts.start = some v → merged.start = v) ∧
          (opts.end_ = none → merged.end_ = ev.end_) ∧
          (∀ v, opts.end_ = some v → merged.end_ = v) ∧
          (opts.allDay = none → merged.allDay = some ev.allDay) ∧
          (∀ v, opts.allDay = some v → merged.allDay = some v) := by
  intro cals opts now ev h
  rw [Option.isSome_iff_exists] at h
  obtain ⟨c, hc⟩ := h
  constructor
  · simp [updateEvent, hc]
  · refine ⟨⟨opts.eventUrl, jsOrStr opts.etag ev.etag, buildICS
      { uid := ev.uid, summary := opts.summary.getD ev.summary,
        description := match opts.description with | some d => some d | none => ev.description,
        location := match opts.location with | some d => some d | none => ev.location,
        start := opts.start.getD ev.start, end_ := opts.end_.getD ev.end_,
        allDay := some (opts.allDay.getD ev.allDay), attendees := none } now⟩,
      by simp only [updateEvent, hc], rfl, ?_, ?_,
      { uid := ev.uid, summary := opts.summary.getD ev.summary,
        description := match opts.description with | some d => some d | none => ev.description,
        location := match opts.location with | some d => some d | none => ev.location,
        start := opts.start.getD ev.start, end_ := opts.end_.getD ev.end_,
        allDay := some (opts.allDay.getD ev.allDay), attendees := none },
      rfl, rfl,
      ?_, ?_, ?_, ?_, ?_, ?_, ?_, ?_, ?_, ?_, ?_, ?_⟩
    · intro e he hne
      simp [jsOrStr, he, hne]
    · intro he
      simp [jsOrStr, he]
    all_goals intros; simp_all

def c4Cal : DAVCalendar := { url := "https://host/work/".toList, displayName := "Work".toList }

def c4Ev : CalendarEvent :=
  { id := "https://host/work/e2.ics".toList, uid := "u2".toList,
    etag := "tag2".toList, url := "https://host/work/e2.ics".toList,
    summary := "Old title".toList, description := some "Old body".toList,
    start := some 0, end_ := some 3600000, allDay := false }

def c4Opts : UpdateEventOptions :=
  { calendarId := "https://host/work/".toList, eventUrl := "https://host/work/e2.ics".toList,
    summary := some "New title".toList }

/-- C4 witness: the update semantics at a concrete resolvable calendar —
an absent fetched event is a hard failure, a present one yields a
conditional write to the event's url. -/
theorem c4_update_merge_semantics_witness :
    updateEvent [c4Cal] none c4Opts none = .error "Event not found".toList ∧
    ∃ w, updateEvent [c4Cal] (some c4Ev) c4Opts none = .ok w ∧ w.url = c4Opts.eventUrl := by
  obtain ⟨h1, w, hw, hurl, -⟩ := c4_update_merge_semantics [c4Cal] c4Opts none c4Ev (by decide)
  exact ⟨h1, w, hw, hurl⟩

/-! ## Claim C5: availability checking -/

theorem filter_length_eq_zero_eq_all {α : Type} (p : α → Bool) (l : List α) :
    ((l.filter p).length == 0) = l.all (fun e => !p e) := by
  induction l with
  | nil => rfl
  | cons a t ih =>
    by_cases h : p a <;> simp_all [List.filter_cons, List.all_cons]

/-- C5: a slot is reported unavailable exactly when some event returned
for its range satisfies `eventStart < slotEnd` and `eventEnd > slotStart`
(strict comparisons: touching endpoints do not conflict); the slot's
result carries exactly the conflicting events; and the aggregate
`availableSlots` equals the number of slots with no conflicting event. -/
theorem c5_availability_overlap :
    ∀ (fetchEvents : JSDate → JSDate → List CalendarEvent)
      (proposedTimes : List ProposedSlot) (i : Nat) (h : i < proposedTimes.length),
      ∃ hr : i < (checkAvailability fetchEvents proposedTimes).results.length,
        (((checkAvailability fetchEvents proposedTimes).results[i].available = false) ↔
          ∃ e ∈ fetchEvents (proposedTimes[i]).start (proposedTimes[i]).end_,
            jsDateLt e.start (proposedTimes[i]).end_ = true ∧
            jsDateGt e.end_ (proposedTimes[i]).start = true) ∧
        ((checkAvailability fetchEvents proposedTimes).results[i].conflicts =
          ((fetchEvents (proposedTimes[i]).start (proposedTimes[i]).end_).filter
              (slotConflict (proposedTimes[i]).start (proposedTimes[i]).end_)).map
            (fun c => ConflictInfo.mk c.summary c.start c.end_)) ∧
        (checkAvailability fetchEvents proposedTimes).availableSlots =
          proposedTimes.countP (fun s =>
            (fetchEvents s.start s.end_).all (fun e => !slotConflict s.start s.end_ e)) := by
  intro fetchEvents proposedTimes i h
  have hlen : (checkAvailability fetchEvents proposedTimes).results.length
      = proposedTimes.length := by
    simp [checkAvailability]
  refine ⟨by omega, ?_, ?_, ?_⟩
  · rw [show (checkAvailability fetchEvents proposedTimes).results[i]
        = (fun slot =>
            let events := fetchEvents slot.start slot.end_
            let conflicts := events.filter (slotConflict slot.start slot.end_)
            SlotResult.mk slot.start slot.end_ (conflicts.length == 0)
              (conflicts.map fun c => ConflictInfo.mk c.summary c.start c.end_))
          proposedTimes[i] from by
      simp [checkAvailability]]
    simp only []
    rw [filter_length_eq_zero_eq_all]
    constructor
    · intro hfalse
      have : ¬ ∀ e ∈ fetchEvents (proposedTimes[i]).start (proposedTimes[i]).end_,
          (!slotConflict (proposedTimes[i]).start (proposedTimes[i]).end_ e) = true := by
        intro hall
        rw [List.all_eq_true.mpr hall] at hfalse
        cases hfalse
      push_neg at this
      obtain ⟨e, hmem, hne⟩ := this
      refine ⟨e, hmem, ?_⟩
      have : slotConflict (proposedTimes[i]).start (proposedTimes[i]).end_ e = true := by
        revert hne
        cases slotConflict (proposedTimes[i]).start (proposedTimes[i]).end_ e <;> simp
      simpa [slotConflict, Bool.and_eq_true] using this
    · rintro ⟨e, hmem, hlt, hgt⟩
      have hconf : slotConflict (proposedTimes[i]).start (proposedTimes[i]).end_ e = true := by
        simp [slotConflict, hlt, hgt]
      have : proposedTimes[i].start = (proposedTimes[i]).start := rfl
      have hnall : (fetchEvents (proposedTimes[i]).start (proposedTimes[i]).end_).all
          (fun e => !slotConflict (proposedTimes[i]).start (proposedTimes[i]).end_ e) = false := by
        rw [List.all_eq_false]
        exact ⟨e, hmem, by simp [hconf]⟩
      rw [hnall]
  · rw [show (checkAvailability fetchEvents proposedTimes).results[i]
        = (fun slot =>
            let events := fetchEvents slot.start slot.end_
            let conflicts := events.filter (slotConflict slot.start slot.end_)
            SlotResult.mk slot.start slot.end_ (conflicts.length == 0)
              (conflicts.map fun c => ConflictInfo.mk c.summary c.start c.end_))
          proposedTimes[i] from by
      simp [checkAvailability]]
  · simp only [checkAvailability, ← List.countP_eq_length_filter]
    rw [List.countP_map]
    congr 1
    funext s
    simp only [Function.comp]
    rw [List.countP_eq_length_filter]
    exact filter_length_eq_zero_eq_all _ _

def c5EventMid : CalendarEvent :=
  { id := "e-mid".toList, uid := "e-mid".toList, etag := [], url := "e-mid".toList,
    summary := "overlapping".toList, start := some 37800000, end_ := some 38700000,
    allDay := false }

def c5EventTouchEnd : CalendarEvent :=
  { id := "e-end".toList, uid := "e-end".toList, etag := [], url := "e-end".toList,
    summary := "touching end".toList, start := some 39600000, end_ := some 41400000,
    allDay := false }

def c5EventTouchStart : CalendarEvent :=
  { id := "e-start".toList, uid := "e-start".toList, etag := [], url := "e-start".toList,
    summary := "touching start".toList, start := some 32400000, end_ := some 36000000,
    allDay := false }

/-- The events returned for every queried range: one strictly inside the
first slot, one touching its end, one touching its start. -/
def c5Fetch : JSDate → JSDate → List CalendarEvent :=
  fun _ _ => [c5EventMid, c5EventTouchEnd, c5EventTouchStart]

/-- Slot `[10:00, 11:00)` (in ms of day) and a later free slot. -/
def c5Slots : List ProposedSlot :=
  [{ start := some 36000000, end_ := some 39600000 },
   { start := some 41400000, end_ := some 45000000 }]

/-- C5 witness: the first slot is unavailable exactly because of the
strictly-overlapping event (the endpoint-touching events do not count),
and the aggregate availability count is the number of conflict-free
slots, here 1 of 2. -/
theorem c5_availability_overlap_witness :
    ((checkAvailability c5Fetch c5Slots).availableSlots =
      c5Slots.countP (fun s =>
        (c5Fetch s.start s.end_).all (fun e => !slotConflict s.start s.end_ e))) ∧
    (checkAvailability c5Fetch c5Slots).availableSlots = 1 ∧
    slotConflict (some 36000000) (some 39600000) c5EventMid = true ∧
    slotConflict (some 36000000) (some 39600000) c5EventTouchEnd = false ∧
    slotConflict (some 36000000) (some 39600000) c5EventTouchStart = false := by
  obtain ⟨hr, hiff, hconf, hagg⟩ := c5_availability_overlap c5Fetch c5Slots 0 (by decide)
  exact ⟨hagg, by decide, by decide, by decide, by decide⟩

/-! ## Claims C6 and C9: the scheduling detector -/

/-- The arithmetic characterisation of the handler's scoring expressions,
for arbitrary keyword and time-pattern counts. -/
theorem scoreCharacterization (k t : Nat) :
    ((decide (2 ≤ k) || (decide (1 ≤ k) && decide (1 ≤ t))) = true ↔
      2 ≤ k ∨ (1 ≤ k ∧ 1 ≤ t)) ∧
    ((if 3 ≤ k ∧ 1 ≤ t then Confidence.HIGH
      else if 2 ≤ k ∨ 1 ≤ t then Confidence.MEDIUM
      else Confidence.LOW) = Confidence.HIGH ↔ 3 ≤ k ∧ 1 ≤ t) ∧
    ((if 3 ≤ k ∧ 1 ≤ t then Confidence.HIGH
      else if 2 ≤ k ∨ 1 ≤ t then Confidence.MEDIUM
      else Confidence.LOW) = Confidence.MEDIUM ↔ ¬(3 ≤ k ∧ 1 ≤ t) ∧ (2 ≤ k ∨ 1 ≤ t)) ∧
    ((if 3 ≤ k ∧ 1 ≤ t then Confidence.HIGH
      else if 2 ≤ k ∨ 1 ≤ t then Confidence.MEDIUM
      else Confidence.LOW) = Confidence.LOW ↔ ¬(2 ≤ k ∨ 1 ≤ t)) := by
  refine ⟨?_, ?_, ?_, ?_⟩
  · simp
  · split_ifs with h1 h2 <;> simp_all
  · split_ifs with h1 h2 <;> simp_all
  · split_ifs with h1 h2 <;> simp_all

/-- C6: the detector's verdict and confidence follow the documented
formulas of the matched-keyword count and matched-time-pattern count of
the case-folded subject+body: `hasIntent = (k ≥ 2) ∨ (k ≥ 1 ∧ t ≥ 1)`;
HIGH iff `k ≥ 3 ∧ t ≥ 1`, else MEDIUM iff `k ≥ 2 ∨ t ≥ 1`, else LOW. -/
theorem c6_detector_scoring (subject textContent : JSStr) :
    (detectScheduling subject textContent).keywordCount =
      (foundKeywords (detectFullText subject textContent)).length ∧
    ((detectScheduling subject textContent).hasSchedulingIntent = true ↔
      2 ≤ (foundKeywords (detectFullText subject textContent)).length ∨
      (1 ≤ (foundKeywords (detectFullText subject textContent)).length ∧
        1 ≤ foundTimePatternCount (detectFullText subject textContent))) ∧
    ((detectScheduling subject textContent).confidence = Confidence.HIGH ↔
      3 ≤ (foundKeywords (detectFullText subject textContent)).length ∧
        1 ≤ foundTimePatternCount (detectFullText subject textContent)) ∧
    ((detectScheduling subject textContent).confidence = Confidence.MEDIUM ↔
      ¬(3 ≤ (foundKeywords (detectFullText subject textContent)).length ∧
          1 ≤ foundTimePatternCount (detectFullText subject textContent)) ∧
        (2 ≤ (foundKeywords (detectFullText subject textContent)).length ∨
          1 ≤ foundTimePatternCount (detectFullText subject textContent))) ∧
    ((detectScheduling subject textContent).confidence = Confidence.LOW ↔
      ¬(2 ≤ (foundKeywords (detectFullText subject textContent)).length ∨
        1 ≤ foundTimePatternCount (detectFullText subject textContent))) := by
  have hs := scoreCharacterization
    (foundKeywords (detectFullText subject textContent)).length
    (foundTimePatternCount (detectFullText subject textContent))
  exact ⟨rfl, hs.1, hs.2.1, hs.2.2.1, hs.2.2.2⟩

/-- C9: whenever the detector reports intent, the reported confidence is
MEDIUM or HIGH, never LOW: any counts satisfying the intent formula also
satisfy the MEDIUM-or-better condition. -/
theorem c9_intent_never_low_confidence (subject textContent : JSStr)
    (h : (detectScheduling subject textContent).hasSchedulingIntent = true) :
    (detectScheduling subject textContent).confidence ≠ Confidence.LOW := by
  have hs := scoreCharacterization
    (foundKeywords (detectFullText subject textContent)).length
    (foundTimePatternCount (detectFullText subject textContent))
  intro hlow
  have hnot := hs.2.2.2.mp hlow
  have hint := hs.1.mp h
  omega

/-- C9 witness: a concrete email with two matched keywords has intent and
non-LOW confidence. -/
theorem c9_intent_never_low_confidence_witness :
    (detectScheduling "Meeting".toList "please schedule a call".toList).hasSchedulingIntent
      = true ∧
    (detectScheduling "Meeting".toList "please schedule a call".toList).confidence
      ≠ Confidence.LOW := by
  refine ⟨by decide, c9_intent_never_low_confidence _ _ (by decide)⟩

/-! ## Claim C8: the `email_to_calendar` gating -/

/-- Observation: is a handler reply the structured needs-parsing status? -/
def isNeedsParsing : EmailToCalendarResult → Bool
  | .needsParsing _ _ _ => true
  | _ => false

/-- An email with detected scheduling intent: its subject and body match
the keywords `meeting`, `schedule` and `call`. -/
def c8Email : Email :=
  { subject := some "Meeting".toList,
    from_ := some [{ email := "alice@example.com".toList, name := some "Alice".toList }],
    textBody := some [{ partId := "1".toList }],
    bodyValues := some [("1".toList, "please schedule a call".toList)] }

/-- C8 counterexample: `c8Email` has detected scheduling intent (the
detector, run on its subject and extracted body exactly as the
`detect_scheduling_email` handler extracts them, reports intent), yet
with the confirmation flag set but no calendar client configured
(`calendar` is null when no app password is set) the handler returns
the preview, not the needs-parsing status the claim promises whenever
the flag is set. -/
theorem c8_confirm_without_calendar_counterexample :
    (detectScheduling (jsOrStr c8Email.subject []) (extractTextContent c8Email)).hasSchedulingIntent = true ∧
    emailToCalendar "m1".toList (some c8Email) false true =
      .preview (mkExtractedInfo "m1".toList c8Email) previewInstruction ∧
    isNeedsParsing (emailToCalendar "m1".toList (some c8Email) false true) = false := by
  exact ⟨by decide, rfl, rfl⟩

/-- C8 amended: the handler never creates an event in any branch (its
replies are exhaustively not-found / preview / needs-parsing, and its
only external call is the email fetch); with the flag unset it returns
the preview; with the flag set and the calendar client configured it
returns the structured needs-parsing status whose fixed instruction
names the required inputs (date/time, duration, location, attendees);
with the flag set but no calendar client configured it still returns
the preview. -/
theorem c8_email_to_calendar_gating :
    ∀ (emailId : JSStr) (email : Email) (calendarConfigured confirm : Bool),
      (emailToCalendar emailId none calendarConfigured confirm = .emailNotFound) ∧
      (confirm = false →
        emailToCalendar emailId (some email) calendarConfigured confirm =
          .preview (mkExtractedInfo emailId email) previewInstruction) ∧
      (confirm = true → calendarConfigured = true →
        emailToCalendar emailId (some email) calendarConfigured confirm =
          .needsParsing needsParsingMessage (mkExtractedInfo emailId email)
            needsParsingInstruction) ∧
      (confirm = true → calendarConfigured = false →
        emailToCalendar emailId (some email) calendarConfigured confirm =
          .preview (mkExtractedInfo emailId email) previewInstruction) ∧
      jsIncludes "Meeting date/time".toList needsParsingInstruction = true ∧
      jsIncludes "Duration".toList needsParsingInstruction = true ∧
      jsIncludes "Location/call link".toList needsParsingInstruction = true ∧
      jsIncludes "Attendees".toList needsParsingInstruction = true := by
  intro emailId email calendarConfigured confirm
  refine ⟨rfl, ?_, ?_, ?_, by decide, by decide, by decide, by decide⟩
  · rintro rfl
    rfl
  · rintro rfl rfl
    rfl
  · rintro rfl rfl
    rfl

/-- C8 witness: the amended gating at a concrete email — flag unset
gives the preview, flag set with a configured calendar gives the
needs-parsing status. -/
theorem c8_email_to_calendar_gating_witness :
    emailToCalendar "m1".toList (some c8Email) true false =
      .preview (mkExtractedInfo "m1".toList c8Email) previewInstruction ∧
    emailToCalendar "m1".toList (some c8Email) true true =
      .needsParsing needsParsingMessage (mkExtractedInfo "m1".toList c8Email)
        needsParsingInstruction := by
  exact ⟨(c8_email_to_calendar_gating "m1".toList c8Email true false).2.1 rfl,
    (c8_email_to_calendar_gating "m1".toList c8Email true true).2.2.1 rfl rfl⟩

/-! ## Claim C7: the all-day marker and the end-token default -/

def c7Obj : DAVObject :=
  { url := "u7".toList,
    data := some "UID:u7\nDTSTART:20240101\nDTEND:20240102\nSUMMARY:X\n".toList }

/-- C7 counterexample: a decoded event whose start token `20240101` has
no time component (no `T`) and whose start line carries no
`VALUE=DATE-TIME` marker, yet the decoder marks it `allDay = false`,
because the code only sets the flag when the matched line contains
`VALUE=DATE`. -/
theorem c7_bare_date_not_allday_counterexample :
    (findDt "DTSTART".toList (c7Obj.data.getD [])).map (fun wc => wc.2) =
      some "20240101".toList ∧
    "20240101".toList.contains 'T' = false ∧
    (findDt "DTSTART".toList (c7Obj.data.getD [])).map
        (fun wc => jsIncludes "VALUE=DATE-TIME".toList wc.1) = some false ∧
    (parseCalendarObject 0 c7Obj).map (·.allDay) = some false := by
  exact ⟨rfl, rfl, by exact rfl, by exact rfl⟩

/-- C7 amended: a decoded event is marked all-day exactly when its
matched `DTSTART` line contains `VALUE=DATE` but not `VALUE=DATE-TIME`
(a bare date token with no marker is not all-day); and when the event
block has no end token the decoded end equals the decoded start. -/
theorem c7_allday_marker_and_end_default :
    ∀ (tz : Int) (obj : DAVObject) (ev : CalendarEvent),
      parseCalendarObject tz obj = some ev →
      (ev.allDay =
        (match findDt "DTSTART".toList (obj.data.getD []) with
         | some wc =>
           jsIncludes "VALUE=DATE".toList wc.1 && !jsIncludes "VALUE=DATE-TIME".toList wc.1
         | none => false)) ∧
      (findDt "DTEND".toList (obj.data.getD []) = none → ev.end_ = ev.start) := by
  intro tz obj ev h
  rw [parseCalendarObject] at h
  split at h
  · exact absurd h (by simp)
  · dsimp only at h
    split at h
    next s e hs he =>
      injection h with h
      subst h
      refine ⟨rfl, ?_⟩
      intro hend
      rw [hend] at he
      rw [hs] at he
      injection he with he
      subst he
      rfl
    next => exact absurd h (by simp)

def c7AllDayObj : DAVObject :=
  { url := "u7b".toList,
    data := some "UID:u7b\nDTSTART;VALUE=DATE:20240101\nSUMMARY:X\n".toList }

/-- C7 witness: a concrete object whose start line carries the
`VALUE=DATE` marker and which has no end token decodes as all-day with
`end = start`. -/
theorem c7_allday_marker_and_end_default_witness :
    (parseCalendarObject 0 c7AllDayObj).map (·.allDay) = some true ∧
    (parseCalendarObject 0 c7AllDayObj).map (·.end_) =
      (parseCalendarObject 0 c7AllDayObj).map (·.start) := by
  obtain ⟨ev, hev⟩ := Option.isSome_iff_exists.mp
    (show (parseCalendarObject 0 c7AllDayObj).isSome = true from by exact rfl)
  have hc := c7_allday_marker_and_end_default 0 c7AllDayObj ev hev
  rw [hev]
  constructor
  · simp only [Option.map_some']
    rw [hc.1]
    exact congrArg some (by exact rfl)
  · simp only [Option.map_some']
    rw [hc.2 (by exact rfl)]

/-! ## Claim C10: decode tolerance -/

/-- C10: for a wire object with non-empty data, the decoder returns an
event exactly when both the extracted start token and end token parse as
dates (so a missing or unparsable start or end is the only way to get
`null`); and a decoded event substitutes `No Title` for a missing
`SUMMARY` line and the empty string for a missing `UID` line. -/
theorem c10_decode_tolerance :
    ∀ (tz : Int) (obj : DAVObject), jsTruthyStr obj.data = true →
      ((parseCalendarObject tz obj).isSome ↔
        (parseICSDate tz
          (match findDt "DTSTART".toList (obj.data.getD []) with
           | some wc => jsTrim wc.2
           | none => [])).isSome ∧
        (parseICSDate tz
          (match findDt "DTEND".toList (obj.data.getD []) with
           | some wc => jsTrim wc.2
           | none =>
             match findDt "DTSTART".toList (obj.data.getD []) with
             | some wc => jsTrim wc.2
             | none => [])).isSome) ∧
      (∀ ev, parseCalendarObject tz obj = some ev →
        (findField "SUMMARY:".toList (obj.data.getD []) = none →
          ev.summary = "No Title".toList) ∧
        (findField "UID:".toList (obj.data.getD []) = none → ev.uid = [])) := by
  intro tz obj hdata
  rw [parseCalendarObject]
  rw [show (!jsTruthyStr obj.data) = false by rw [hdata]; rfl]
  simp only [Bool.false_eq_true, if_false]
  constructor
  · cases hs : parseICSDate tz
        (match findDt "DTSTART".toList (obj.data.getD []) with
         | some wc => jsTrim wc.2
         | none => []) with
    | none =>
      cases he : parseICSDate tz
          (match findDt "DTEND".toList (obj.data.getD []) with
           | some wc => jsTrim wc.2
           | none =>
             match findDt "DTSTART".toList (obj.data.getD []) with
             | some wc => jsTrim wc.2
             | none => []) with
      | none => simp [hs, he]
      | some e => simp [hs, he]
    | some s =>
      cases he : parseICSDate tz
          (match findDt "DTEND".toList (obj.data.getD []) with
           | some wc => jsTrim wc.2
           | none =>
             match findDt "DTSTART".toList (obj.data.getD []) with
             | some wc => jsTrim wc.2
             | none => []) with
      | none => simp [hs, he]
      | some e => simp [hs, he]
  · intro ev h
    split at h
    next s e hs he =>
      injection h with h
      subst h
      constructor
      · intro hsum
        rw [hsum]
      · intro huid
        rw [huid]
    next => exact absurd h (by simp)

def c10Obj : DAVObject :=
  { url := "u10".toList,
    data := some "DTSTART:20240101T100000Z\nDTEND:20240101T110000Z\n".toList }

/-- C10 witness: a concrete object with parsable start and end tokens but
no `SUMMARY` and no `UID` line decodes to an event with summary
`No Title` and an empty uid. -/
theorem c10_decode_tolerance_witness :
    (parseCalendarObject 0 c10Obj).isSome = true ∧
    (parseCalendarObject 0 c10Obj).map (·.summary) = some "No Title".toList ∧
    (parseCalendarObject 0 c10Obj).map (·.uid) = some [] := by
  have hc := c10_decode_tolerance 0 c10Obj (by exact rfl)
  have hsome : (parseCalendarObject 0 c10Obj).isSome = true :=
    hc.1.mpr ⟨by exact rfl, by exact rfl⟩
  obtain ⟨ev, hev⟩ := Option.isSome_iff_exists.mp hsome
  have h2 := hc.2 ev hev
  refine ⟨hsome, ?_, ?_⟩
  · rw [hev, Option.map_some']
    exact congrArg some (h2.1 (by exact rfl))
  · rw [hev, Option.map_some']
    exact congrArg some (h2.2 (by exact rfl))

/-! ## Claim C3: multi-calendar listing resilience -/

theorem orderedInsert_perm (le : α → α → Bool) (a : α) :
    ∀ l : List α, (orderedInsert le a l).Perm (a :: l) := by
  intro l
  induction l with
  | nil => simp [orderedInsert]
  | cons b t ih =>
    by_cases h : le a b = true
    · simp [orderedInsert, h]
    · simp only [orderedInsert, h, if_false]
      exact (List.Perm.cons b ih).trans (List.Perm.swap a b t)

theorem insertionSort_perm (le : α → α → Bool) :
    ∀ l : List α, (insertionSort le l).Perm l := by
  intro l
  induction l with
  | nil => simp [insertionSort]
  | cons a t ih =>
    exact (orderedInsert_perm le a (insertionSort le t)).trans (List.Perm.cons a ih)

theorem pairwise_orderedInsert (le : α → α → Bool) (a : α) :
    ∀ l : List α,
      (∀ b ∈ l, le a b = true ∨ le b a = true) →
      (∀ b ∈ l, ∀ c ∈ l, le a b = true → le b c = true → le a c = true) →
      l.Pairwise (fun x y => le x y = true) →
      (orderedInsert le a l).Pairwise (fun x y => le x y = true) := by
  intro l
  induction l with
  | nil => intro _ _ _; simp [orderedInsert]
  | cons b t ih =>
    intro htot htr hl
    rcases List.pairwise_cons.mp hl with ⟨hb, ht⟩
    by_cases h : le a b = true
    · simp only [orderedInsert, h, if_true]
      refine List.pairwise_cons.mpr ⟨?_, hl⟩
      intro x hx
      rcases List.mem_cons.mp hx with rfl | hx
      · exact h
      · exact htr b (List.mem_cons_self _ _) x (List.mem_cons_of_mem b hx) h (hb x hx)
    · simp only [orderedInsert, h, if_false]
      refine List.pairwise_cons.mpr ⟨?_, ?_⟩
      · intro x hx
        rcases List.mem_cons.mp ((orderedInsert_perm le a t).mem_iff.mp hx) with rfl | hxt
        · rcases htot b (List.mem_cons_self _ _) with hab | hba
          · exact absurd hab h
          · exact hba
        · exact hb x hxt
      · refine ih ?_ ?_ ht
        · intro x hx; exact htot x (List.mem_cons_of_mem b hx)
        · intro x hx y hy
          exact htr x (List.mem_cons_of_mem b hx) y (List.mem_cons_of_mem b hy)

theorem pairwise_insertionSort (le : α → α → Bool) :
    ∀ l : List α,
      (∀ a ∈ l, ∀ b ∈ l, le a b = true ∨ le b a = true) →
      (∀ a ∈ l, ∀ b ∈ l, ∀ c ∈ l, le a b = true → le b c = true → le a c = true) →
      (insertionSort le l).Pairwise (fun x y => le x y = true) := by
  intro l
  induction l with
  | nil => intro _ _; simp [insertionSort]
  | cons a t ih =>
    intro htot htr
    have hmem : ∀ x ∈ insertionSort le t, x ∈ t :=
      fun x hx => (insertionSort_perm le t).mem_iff.mp hx
    refine pairwise_orderedInsert le a (insertionSort le t) ?_ ?_ ?_
    · intro b hb
      exact htot a (List.mem_cons_self _ _) b (List.mem_cons_of_mem a (hmem b hb))
    · intro b hb c hc
      exact htr a (List.mem_cons_self _ _) b (List.mem_cons_of_mem a (hmem b hb))
        c (List.mem_cons_of_mem a (hmem c hc))
    · refine ih ?_ ?_
      · intro x hx y hy
        exact htot x (List.mem_cons_of_mem a hx) y (List.mem_cons_of_mem a hy)
      · intro x hx y hy z hz
        exact htr x (List.mem_cons_of_mem a hx) y (List.mem_cons_of_mem a hy)
          z (List.mem_cons_of_mem a hz)

/-- The per-calendar collection loop of `listEvents`, as the
concatenation of each succeeding calendar's parsed events. -/
theorem listEvents_collect (tz : Int) (fetch : DAVCalendar → Except JSStr (List DAVObject)) :
    ∀ (cals : List DAVCalendar) (acc : List CalendarEvent),
      cals.foldl
        (fun acc cal =>
          match fetch cal with
          | .ok objects => acc ++ objects.filterMap (parseCalendarObject tz)
          | .error _ => acc) acc
      = acc ++ (cals.map fun cal =>
          match fetch cal with
          | .ok objects => objects.filterMap (parseCalendarObject tz)
          | .error _ => []).flatten := by
  intro cals
  induction cals with
  | nil => intro acc; simp
  | cons c t ih =>
    intro acc
    cases hf : fetch c with
    | ok objects => simp [List.foldl_cons, hf, ih, List.flatten]
    | error e => simp [List.foldl_cons, hf, ih, List.flatten]

theorem startLe_total (a b : CalendarEvent) : startLe a b = true ∨ startLe b a = true := by
  cases ha : a.start <;> cases hb : b.start <;> simp [startLe, ha, hb]
  omega

/-- C3: with no calendar-id filter, `listEvents` is total for every fetch
oracle (a failing calendar contributes nothing and aborts nothing): it
returns exactly the parsed events of the succeeding calendars — a
permutation of their concatenation — and, whenever the collected events
have valid start instants, the result is sorted ascending by start. -/
theorem c3_list_events_resilience :
    ∀ (tz : Int) (cals : List DAVCalendar)
      (fetch : DAVCalendar → Except JSStr (List DAVObject)),
      (listEvents tz cals fetch none).Perm
        ((cals.map fun cal =>
          match fetch cal with
          | .ok objects => objects.filterMap (parseCalendarObject tz)
          | .error _ => []).flatten) ∧
      ((∀ ev ∈ listEvents tz cals fetch none, ev.start ≠ none) →
        (listEvents tz cals fetch none).Pairwise
          (fun a b => ∃ x y, a.start = some x ∧ b.start = some y ∧ x ≤ y)) := by
  intro tz cals fetch
  have hLE : listEvents tz cals fetch none
      = insertionSort startLe
          ((cals.map fun cal =>
            match fetch cal with
            | .ok objects => objects.filterMap (parseCalendarObject tz)
            | .error _ => []).flatten) := by
    show insertionSort startLe _ = _
    congr 1
    simpa using listEvents_collect tz fetch cals []
  rw [hLE]
  constructor
  · exact insertionSort_perm startLe _
  · intro hvalid
    have hvalid' : ∀ ev ∈ (cals.map fun cal =>
        match fetch cal with
        | .ok objects => objects.filterMap (parseCalendarObject tz)
        | .error _ => []).flatten, ev.start ≠ none := by
      intro ev hev
      exact hvalid ev ((insertionSort_perm startLe _).mem_iff.mpr hev)
    refine (pairwise_insertionSort startLe _ (fun a _ b _ => startLe_total a b) ?_).imp_of_mem ?_
    · intro a ha b hb c hc hab hbc
      cases hx : a.start with
      | none => exact absurd hx (hvalid' a ha)
      | some x =>
        cases hy : b.start with
        | none => exact absurd hy (hvalid' b hb)
        | some y =>
          cases hz : c.start with
          | none => exact absurd hz (hvalid' c hc)
          | some z =>
            rw [show startLe a b = decide (x - y ≤ 0) from by simp [startLe, hx, hy]] at hab
            rw [show startLe b c = decide (y - z ≤ 0) from by simp [startLe, hy, hz]] at hbc
            rw [show startLe a c = decide (x - z ≤ 0) from by simp [startLe, hx, hz]]
            simp only [decide_eq_true_eq] at hab hbc ⊢
            omega
    · intro a b ha hb hab
      have hva := hvalid a ha
      have hvb := hvalid b hb
      cases hx : a.start with
      | none => exact absurd hx hva
      | some x =>
        cases hy : b.start with
        | none => exact absurd hy hvb
        | some y =>
          refine ⟨x, y, rfl, rfl, ?_⟩
          rw [show startLe a b = decide (x - y ≤ 0) from by simp [startLe, hx, hy]] at hab
          simp only [decide_eq_true_eq] at hab
          omega

def c3CalA : DAVCalendar := { url := "https://host/a/".toList, displayName := "A".toList }

def c3CalB : DAVCalendar := { url := "https://host/b/".toList, displayName := "B".toList }

def c3CalC : DAVCalendar := { url := "https://host/c/".toList, displayName := "C".toList }

def c3ObjA1 : DAVObject :=
  { url := "a1".toList,
    data := some "UID:a1\nDTSTART:20240101T100000Z\nDTEND:20240101T110000Z\nSUMMARY:A1\n".toList }

def c3ObjA2 : DAVObject :=
  { url := "a2".toList,
    data := some "UID:a2\nDTSTART:20240101T080000Z\nDTEND:20240101T083000Z\nSUMMARY:A2\n".toList }

def c3ObjC1 : DAVObject :=
  { url := "c1".toList,
    data := some "UID:c1\nDTSTART:20240101T090000Z\nDTEND:20240101T093000Z\nSUMMARY:C1\n".toList }

/-- A fetch oracle where calendar B's fetch raises a transport error. -/
def c3Fetch : DAVCalendar → Except JSStr (List DAVObject) :=
  fun c =>
    if c.url == c3CalB.url then .error "ECONNRESET".toList
    else if c.url == c3CalA.url then .ok [c3ObjA1, c3ObjA2]
    else .ok [c3ObjC1]

/-- C3 witness: with three calendars where the middle fetch raises,
`listEvents` returns the union of the other two calendars' events sorted
ascending by start (`a2` at 08:00, `c1` at 09:00, `a1` at 10:00). -/
theorem c3_list_events_resilience_witness :
    (listEvents 0 [c3CalA, c3CalB, c3CalC] c3Fetch none).Perm
      (([c3CalA, c3CalB, c3CalC].map fun cal =>
        match c3Fetch cal with
        | .ok objects => objects.filterMap (parseCalendarObject 0)
        | .error _ => []).flatten) ∧
    (listEvents 0 [c3CalA, c3CalB, c3CalC] c3Fetch none).Pairwise
      (fun a b => ∃ x y, a.start = some x ∧ b.start = some y ∧ x ≤ y) ∧
    (listEvents 0 [c3CalA, c3CalB, c3CalC] c3Fetch none).map (·.uid) =
      ["a2".toList, "c1".toList, "a1".toList] := by
  have h := c3_list_events_resilience 0 [c3CalA, c3CalB, c3CalC] c3Fetch
  exact ⟨h.1, h.2 (by decide), by exact rfl⟩
